import Mathlib

set_option autoImplicit false

/-!
Shallow embedding of the `fsapi` client (`src/fsapi/__init__.py`), the
session/request core of a Frontier Silicon device client, together with
theorems settling the frozen claims about it.

Modelling conventions:
* XML documents (as produced by `lxml.objectify.fromstring`) are the
  inductive `XElem`; objectify attribute access `doc.value` is `XElem.attr`
  (raising `AttributeError` when the child is absent).
* Python exceptions are the `Except PyErr _` monad.  `FSAPI.call` catches
  every exception, so it is a total function into `Option XElem`; the
  handlers above it do *not* catch, so they live in `Except`.
* The HTTP transport (`requests` session with retry adapter) is a parameter
  `net : Net`; its outcome is either a connection-level failure after the
  retry budget (raised, caught by `call`) or a response carrying a status
  code and a body.  The body is modelled post-parse: `none` stands for a
  body on which `objectify.fromstring` raises.
* Python dicts are association lists with in-place overwriting insertion,
  matching dict update semantics and insertion order.
-/

namespace FSAPI

/-- An XML element tree: tag, XML attributes, text payload (lxml's `.text`,
`none` for an empty element) and child elements in document order. -/
inductive XElem where
  | node (tag : String) (attrs : List (String × String)) (text : Option String)
      (children : List XElem)

def XElem.tag : XElem → String
  | .node t _ _ _ => t

def XElem.attrsOf : XElem → List (String × String)
  | .node _ a _ _ => a

def XElem.text : XElem → Option String
  | .node _ _ tx _ => tx

def XElem.children : XElem → List XElem
  | .node _ _ _ cs => cs

/-- The Python exceptions the embedded code can raise. -/
inductive PyErr where
  | attributeError
  | valueError
  | typeError
  | keyError
  | indexError
  | connectionError
  | xmlSyntaxError
deriving DecidableEq

/-- First child with the given tag, or `none` (objectify lookup). -/
def XElem.findChild (x : XElem) (t : String) : Option XElem :=
  x.children.find? (fun c => c.tag == t)

/-- objectify attribute access `doc.t`: the first child tagged `t`, raising
`AttributeError` when there is none. -/
def XElem.attr (x : XElem) (t : String) : Except PyErr XElem :=
  match x.findChild t with
  | some c => .ok c
  | none => .error .attributeError

/-- Python `element.get(name)`: XML attribute lookup, `None` when absent. -/
def XElem.attrGet (x : XElem) (t : String) : Option String :=
  (x.attrsOf.find? (fun kv => kv.1 == t)).map (·.2)

/-- Value of a decimal digit string. -/
def digitsVal (cs : List Char) : Nat :=
  cs.foldl (fun n c => 10 * n + (c.toNat - 48)) 0

/-- ASCII whitespace, as stripped by Python's `int()`. -/
def isPySpace (c : Char) : Bool :=
  c == ' ' || c == '\t' || c == '\n' || c == '\x0d'

/-- Strip leading and trailing whitespace from a character list. -/
def pyStrip (cs : List Char) : List Char :=
  ((cs.dropWhile isPySpace).reverse.dropWhile isPySpace).reverse

/-- The digit run of `int()`: nonempty and all decimal digits. -/
def parseDigits (ds : List Char) : Option Nat :=
  if ds ≠ [] ∧ ds.all Char.isDigit then some (digitsVal ds) else none

/-- Python `int(s)` on a string: optional surrounding whitespace, optional
sign, then at least one digit; `none` when `int()` would raise ValueError. -/
def parsePyInt (s : String) : Option Int :=
  match pyStrip s.data with
  | '-' :: ds => (parseDigits ds).map (fun n => -(n : Int))
  | '+' :: ds => (parseDigits ds).map (fun n => (n : Int))
  | ds => (parseDigits ds).map (fun n => (n : Int))

/-- Python `int(x)` where `x` is lxml's `.text` (a string or `None`):
`TypeError` on `None`, `ValueError` on a non-numeric string. -/
def pyInt : Option String → Except PyErr Int
  | none => .error .typeError
  | some s =>
    match parsePyInt s with
    | some n => .ok n
    | none => .error .valueError

/-- objectify `element == s` against a Python string: objectify infers the
element's type from its content, so a numeric-content element is an
IntElement and compares unequal to any string, while a string-content
element compares by its text (empty element ~ empty string). -/
def elemEqStr (e : XElem) (s : String) : Bool :=
  match parsePyInt (e.text.getD "") with
  | some _ => false
  | none => (e.text.getD "") == s

/-- objectify `element == m` against a Python int: an IntElement compares
numerically, any other element compares unequal. -/
def elemEqInt (e : XElem) (m : Int) : Bool :=
  match parsePyInt (e.text.getD "") with
  | some n => n == m
  | none => false

/-- A primitive Python value sent as a request parameter. -/
inductive PyV where
  | vnone
  | vstr (s : String)
  | vint (n : Int)
deriving DecidableEq

/-- A Python dict with string keys, as an ordered association list. -/
abbrev Params := List (String × PyV)

/-- Assignment `d[k] = v`: overwrite in place if the key exists, else append. -/
def dictInsert : Params → String → PyV → Params
  | [], k, v => [(k, v)]
  | (k', v') :: rest, k, v =>
    if k' = k then (k', v) :: rest else (k', v') :: dictInsert rest k v

/-- Lookup `d.get(k)` / `d[k]`. -/
def dictLookup : Params → String → Option PyV
  | [], _ => none
  | (k', v') :: rest, k => if k' = k then some v' else dictLookup rest k

/-- Update `d.update(**e)`: insert every binding of `e` into `d`, left to right. -/
def dictUpdate (d : Params) (e : Params) : Params :=
  e.foldl (fun acc kv => dictInsert acc kv.1 kv.2) d

/-- Outcome of one transport-level GET (a `requests` session with the
mounted retry adapter): `connError` is a connection failure surviving the
retry budget, or a timeout, raised as an exception; `response` carries the
HTTP status code and the parsed body (`none` when the body is not
well-formed XML, i.e. `objectify.fromstring` raises). -/
inductive HttpOutcome where
  | connError
  | response (status_code : Nat) (content : Option XElem)

/-- The environment's transport: a function from URL and query parameters
to the outcome of the GET. -/
abbrev Net := String → Params → HttpOutcome

/-- The `FSAPI` client state after construction: the pin handed to the
constructor, the session id (`sid`, `None` until `create_session`
succeeds) and the discovered endpoint (`webfsapi`, `None` until
discovery succeeds). -/
structure Client where
  pin : String
  sid : Option String
  webfsapi : Option String

/-- The value a Python `str`-or-`None` field contributes as a parameter. -/
def sidV : Option String → PyV
  | none => .vnone
  | some s => .vstr s

/-- The parameter dict `call` builds: `dict(pin=self.pin, sid=self.sid)`
then `params.update(**extra)`. -/
def Client.callParams (c : Client) (extra : Params) : Params :=
  dictUpdate [("pin", .vstr c.pin), ("sid", sidV c.sid)] extra

/-- Method `FSAPI.call(path, extra)`: inside a catch-all `try`, raise if
`self.webfsapi` is falsy, normalise a non-dict `extra` to `{}`, build the
parameters, GET `{webfsapi}/{path}`, return `None` on HTTP 404, else the
parsed document.  Every exception (no endpoint, connection failure, parse
failure) is caught and turned into `None`, so the function is total. -/
def Client.call (c : Client) (net : Net) (path : String) (extra : Option Params) :
    Option XElem :=
  match c.webfsapi with
  | none => none
  | some ep =>
    if ep = "" then none
    else
      match net (ep ++ "/" ++ path) (c.callParams (extra.getD [])) with
      | .connError => none
      | .response status_code content =>
        if status_code = 404 then none else content

/-- Method `handle_get(item)`: a GET call on the item, no extra parameters. -/
def Client.handle_get (c : Client) (net : Net) (item : String) : Option XElem :=
  c.call net ("GET/" ++ item) none

/-- The body of `handle_set` after the call: `None` stays `None`, else the
result of `doc.status == 'FS_OK'` (raising AttributeError when the
document has no `status` child). -/
def handle_set_decode (doc? : Option XElem) : Except PyErr (Option Bool) :=
  match doc? with
  | none => .ok none
  | some doc =>
    match doc.attr "status" with
    | .error e => .error e
    | .ok st => .ok (some (elemEqStr st "FS_OK"))

/-- Method `handle_set(item, value)`: a SET call with `dict(value=value)`,
then decode the status. -/
def Client.handle_set (c : Client) (net : Net) (item : String) (value : PyV) :
    Except PyErr (Option Bool) :=
  handle_set_decode (c.call net ("SET/" ++ item) (some [("value", value)]))

/-- The body of `handle_text` after the call: `None` stays `None`, else
`doc.value.c8_array.text or None` (raising AttributeError when `value` or
`c8_array` is absent; an empty or missing text is falsy, hence `None`). -/
def handle_text_decode (doc? : Option XElem) : Except PyErr (Option String) :=
  match doc? with
  | none => .ok none
  | some doc =>
    match doc.attr "value" with
    | .error e => .error e
    | .ok v =>
      match v.attr "c8_array" with
      | .error e => .error e
      | .ok ca =>
        .ok (match ca.text with
             | none => none
             | some s => if s = "" then none else some s)

/-- The body of `handle_int` after the call: `None` stays `None`, else
`int(doc.value.u8.text)` (raising AttributeError on a missing child,
TypeError/ValueError on a missing or non-numeric text). -/
def handle_int_decode (doc? : Option XElem) : Except PyErr (Option Int) :=
  match doc? with
  | none => .ok none
  | some doc =>
    match doc.attr "value" with
    | .error e => .error e
    | .ok v =>
      match v.attr "u8" with
      | .error e => .error e
      | .ok u =>
        match pyInt u.text with
        | .error e => .error e
        | .ok n => .ok (some n)

/-- The body of `handle_long` after the call: like `handle_int` but reading
the `u32` child. -/
def handle_long_decode (doc? : Option XElem) : Except PyErr (Option Int) :=
  match doc? with
  | none => .ok none
  | some doc =>
    match doc.attr "value" with
    | .error e => .error e
    | .ok v =>
      match v.attr "u32" with
      | .error e => .error e
      | .ok u =>
        match pyInt u.text with
        | .error e => .error e
        | .ok n => .ok (some n)

def Client.handle_text (c : Client) (net : Net) (item : String) :
    Except PyErr (Option String) :=
  handle_text_decode (c.handle_get net item)

def Client.handle_int (c : Client) (net : Net) (item : String) :
    Except PyErr (Option Int) :=
  handle_int_decode (c.handle_get net item)

def Client.handle_long (c : Client) (net : Net) (item : String) :
    Except PyErr (Option Int) :=
  handle_long_decode (c.handle_get net item)

/-- Python truthiness of `handle_int`'s result, as used by `bool(...)`:
`bool(None)` is `False`, `bool(n)` is `n != 0`. -/
def pyBool : Option Int → Bool
  | none => false
  | some n => n != 0

/-- Method `get_mute`: `bool(self.handle_int('netRemote.sys.audio.mute'))`. -/
def Client.get_mute (c : Client) (net : Net) : Except PyErr Bool :=
  (c.handle_int net "netRemote.sys.audio.mute").map pyBool

/-- Method `get_power`: `bool(self.handle_int('netRemote.sys.power'))`. -/
def Client.get_power (c : Client) (net : Net) : Except PyErr Bool :=
  (c.handle_int net "netRemote.sys.power").map pyBool

/-- A value stored in a list-item dict built by `handle_list`: the injected
integer band index, or an objectify element taken from a field's last
child. -/
inductive DVal where
  | vint (n : Int)
  | velem (e : XElem)

/-- A list-item dict, as built by `handle_list`: keys are the results of
`field.get('name')` (possibly `None`), in insertion order, with dict
overwrite semantics. -/
abbrev Item := List (Option String × DVal)

/-- Assignment `temp[k] = v` on an item dict: overwrite in place, else append. -/
def itemInsert : Item → Option String → DVal → Item
  | [], k, v => [(k, v)]
  | (k', v') :: rest, k, v =>
    if k' = k then (k', v) :: rest else (k', v') :: itemInsert rest k v

/-- Lookup `temp[k]` on an item dict (`none` where Python raises KeyError). -/
def itemLookup : Item → Option String → Option DVal
  | [], _ => none
  | (k', v') :: rest, k => if k' = k then some v' else itemLookup rest k

/-- Python `==` between a dict value and a string: the injected band index
is an int and never equals a string; a field element compares by
objectify semantics. -/
def dvalEqStr : DVal → String → Bool
  | .vint _, _ => false
  | .velem e, s => elemEqStr e s

/-- Python `==` between a dict value and the result of a typed read
(an int or `None`): nothing equals `None`; ints compare numerically;
a field element compares as objectify against an int. -/
def dvalEqOptInt : DVal → Option Int → Bool
  | _, none => false
  | .vint n, some m => n == m
  | .velem e, some m => elemEqInt e m

/-- The inner loop of `handle_list`: for each field child of an item,
`temp[field.get('name')] = list(field.iterchildren()).pop()` — `.pop()`
takes the LAST child and raises IndexError when the field has none. -/
def addFields (acc : Item) : List XElem → Except PyErr Item
  | [] => .ok acc
  | f :: rest =>
    match f.children.getLast? with
    | none => .error .indexError
    | some v => addFields (itemInsert acc (f.attrGet "name") (.velem v)) rest

/-- One iteration of `handle_list`'s outer loop:
`temp = dict(band=index)` followed by the field loop. -/
def mkListItem (idx : Int) (it : XElem) : Except PyErr Item :=
  addFields [(some "band", .vint idx)] it.children

/-- The outer loop of `handle_list` over `enumerate(doc.iterchildren('item'))`. -/
def buildItems (idx : Int) : List XElem → Except PyErr (List Item)
  | [] => .ok []
  | it :: rest =>
    match mkListItem idx it with
    | .error e => .error e
    | .ok d =>
      match buildItems (idx + 1) rest with
      | .error e => .error e
      | .ok ds => .ok (d :: ds)

/-- The body of `handle_list` after the call: `None` becomes `[]`; a
document whose `status` is not `FS_OK` becomes `[]` (AttributeError when
`status` is absent); otherwise the item loop. -/
def handle_list_decode (doc? : Option XElem) : Except PyErr (List Item) :=
  match doc? with
  | none => .ok []
  | some doc =>
    match doc.attr "status" with
    | .error e => .error e
    | .ok st =>
      if elemEqStr st "FS_OK" then
        buildItems 0 (doc.children.filter (fun c => c.tag == "item"))
      else .ok []

/-- Method `handle_list(item)`: a LIST_GET_NEXT call on the item with start
index -1 and `dict(maxItems=100)`, followed by the decode. -/
def Client.handle_list (c : Client) (net : Net) (item : String) :
    Except PyErr (List Item) :=
  handle_list_decode (c.call net ("LIST_GET_NEXT/" ++ item ++ "/-1")
    (some [("maxItems", .vint 100)]))

/-- The scan loop shared by `set_mode` / `set_eq_preset` (matching the
`label` field) and `set_preset` (matching the `name` field): starting
from `-1`, every item whose keyed field compares equal to `value` resets
the accumulator to that item's `band` entry; dict access raises KeyError
when a key is absent. -/
def scanBand (key value : String) : DVal → List Item → Except PyErr DVal
  | acc, [] => .ok acc
  | acc, it :: rest =>
    match itemLookup it (some key) with
    | none => .error .keyError
    | some lv =>
      if dvalEqStr lv value then
        match itemLookup it (some "band") with
        | none => .error .keyError
        | some b => scanBand key value b rest
      else scanBand key value acc rest

/-- The value `set_mode` passes to `handle_set('netRemote.sys.mode', mode)`:
the result of the scan over the current `modes` list. -/
def set_mode_value (modes : List Item) (value : String) : Except PyErr DVal :=
  scanBand "label" value (.vint (-1)) modes

/-- The value `set_eq_preset` passes to
`handle_set('netRemote.sys.audio.eqPreset', eq_preset)`. -/
def set_eq_preset_value (eq_presets : List Item) (value : String) :
    Except PyErr DVal :=
  scanBand "label" value (.vint (-1)) eq_presets

/-- The value `set_preset` passes to
`handle_set('netRemote.nav.action.selectPreset', preset)`; note it matches
the `name` field, not `label`. -/
def set_preset_value (presets : List Item) (value : String) :
    Except PyErr DVal :=
  scanBand "name" value (.vint (-1)) presets

/-- Whether an item's keyed field matches the requested label (the loop
guard of the set-by-label scan, with an absent key counting as no match). -/
def matchesKey (key value : String) (it : Item) : Bool :=
  (itemLookup it (some key)).elim false (fun lv => dvalEqStr lv value)

/-- The selection rule as the spec words it: the `band` entry of the FIRST
item whose keyed field matches, sentinel `-1` when none matches. -/
def specFirstMatchBand (key value : String) (items : List Item) : Option DVal :=
  match items.find? (matchesKey key value) with
  | none => some (.vint (-1))
  | some it => itemLookup it (some "band")

/-- The last element of a list satisfying a predicate: a match in the tail
wins over the head. -/
def lastMatch (p : Item → Bool) : List Item → Option Item
  | [] => none
  | it :: rest =>
    match lastMatch p rest with
    | some r => some r
    | none => if p it then some it else none

/-- The selection rule the code implements, stated declaratively: the
`band` entry of the LAST item whose keyed field matches, sentinel `-1`
when none matches. -/
def specLastMatchBand (key value : String) (items : List Item) : DVal :=
  match lastMatch (matchesKey key value) items with
  | none => .vint (-1)
  | some it => (itemLookup it (some "band")).getD (.vint (-1))

/-- The label-selection loop of `get_mode` / `get_eq_preset`: `mode = None`,
then every item whose `band` entry compares equal to the int read from the
device resets the accumulator to that item's `label` entry. -/
def scanLabel (intVal : Option Int) :
    Option DVal → List Item → Except PyErr (Option DVal)
  | acc, [] => .ok acc
  | acc, it :: rest =>
    match itemLookup it (some "band") with
    | none => .error .keyError
    | some b =>
      if dvalEqOptInt b intVal then
        match itemLookup it (some "label") with
        | none => .error .keyError
        | some l => scanLabel intVal (some l) rest
      else scanLabel intVal acc rest

/-- Python `str(x)` on the loop accumulator: `str(None)` is the literal
string `"None"`; an int prints decimally; an objectify element prints as
its text. -/
def pyStr : Option DVal → String
  | none => "None"
  | some (.vint n) => toString n
  | some (.velem e) => e.text.getD ""

/-- Method `get_mode`: read `netRemote.sys.mode` as a long, scan `self.modes` for
an entry whose `band` equals it, and return `str(...)` of the selected
label (so a failed read or an unmatched value yields the string "None"). -/
def Client.get_mode (c : Client) (net : Net) : Except PyErr String :=
  match c.handle_long net "netRemote.sys.mode" with
  | .error e => .error e
  | .ok int_mode =>
    match c.handle_list net "netRemote.sys.caps.validModes" with
    | .error e => .error e
    | .ok modes =>
      match scanLabel int_mode none modes with
      | .error e => .error e
      | .ok mode => .ok (pyStr mode)

/-- Method `get_eq_preset`: like `get_mode` but reading
`netRemote.sys.audio.eqPreset` as a `u8` int and scanning `eq_presets`. -/
def Client.get_eq_preset (c : Client) (net : Net) : Except PyErr String :=
  match c.handle_int net "netRemote.sys.audio.eqPreset" with
  | .error e => .error e
  | .ok int_eq =>
    match c.handle_list net "netRemote.sys.caps.eqPresets" with
    | .error e => .error e
    | .ok eqs =>
      match scanLabel int_eq none eqs with
      | .error e => .error e
      | .ok eq_sel => .ok (pyStr eq_sel)

/-- Method `get_fsapi_endpoint`: `self.session.get(self.fsapi_device_url, ...)`
(raising on a connection failure — there is no try/except here), then
`objectify.fromstring(endpoint.content)` (raising on a malformed body),
then `doc.webfsapi.text` (raising AttributeError when the child is
absent).  The HTTP status code is never inspected. -/
def get_fsapi_endpoint (net : Net) (fsapi_device_url : String) :
    Except PyErr (Option String) :=
  match net fsapi_device_url [] with
  | .connError => .error .connectionError
  | .response _ content =>
    match content with
    | none => .error .xmlSyntaxError
    | some doc =>
      match doc.attr "webfsapi" with
      | .error e => .error e
      | .ok w => .ok w.text

/-- Method `create_session`: `doc = self.call('CREATE_SESSION')` then
`doc.sessionId.text`.  When the call returned `None`, the attribute access
on `None` raises AttributeError (uncaught). -/
def Client.create_session (c : Client) (net : Net) :
    Except PyErr (Option String) :=
  match c.call net "CREATE_SESSION" none with
  | none => .error .attributeError
  | some doc =>
    match doc.attr "sessionId" with
    | .error e => .error e
    | .ok sidEl => .ok sidEl.text

/-- Constructor `FSAPI.__init__`: store the pin, initialise `sid` and `webfsapi` to
`None`, then run `self.webfsapi = self.get_fsapi_endpoint()` and
`self.sid = self.create_session()`.  Neither assignment is guarded, so an
exception raised by either step propagates out of the constructor. -/
def initClient (net : Net) (fsapi_device_url : String) (pin : String) :
    Except PyErr Client :=
  let c0 : Client := { pin := pin, sid := none, webfsapi := none }
  match get_fsapi_endpoint net fsapi_device_url with
  | .error e => .error e
  | .ok w =>
    let c1 : Client := { c0 with webfsapi := w }
    match c1.create_session net with
    | .error e => .error e
    | .ok s => .ok { c1 with sid := s }

/-- A concrete constructed client used by witnesses and counterexamples. -/
def demoClient : Client :=
  { pin := "1234", sid := some "sid1", webfsapi := some "http://dev/fsapi" }

/-- A response document with no `value` child. -/
def emptyResponseDoc : XElem := .node "fsapiResponse" [] none []

/-- A transport whose every response is `emptyResponseDoc` with status 200. -/
def netEmptyDoc : Net := fun _ _ => .response 200 (some emptyResponseDoc)

/-- A well-formed GET response carrying `<value><u8>2</u8></value>`. -/
def goodU8Doc : XElem :=
  .node "fsapiResponse" [] none
    [.node "status" [] (some "FS_OK") [],
     .node "value" [] none [.node "u8" [] (some "2") []]]

/-- A transport whose every response is `goodU8Doc` with status 200. -/
def netGoodU8 : Net := fun _ _ => .response 200 (some goodU8Doc)

/-- A SET response whose status is `FS_FAIL`. -/
def failStatusDoc : XElem :=
  .node "fsapiResponse" [] none [.node "status" [] (some "FS_FAIL") []]

/-- A transport whose every response is `failStatusDoc` with status 200. -/
def netFailStatus : Net := fun _ _ => .response 200 (some failStatusDoc)

/-- A transport that always reports a connection failure. -/
def netDown : Net := fun _ _ => .connError

/-- A device root descriptor advertising the control endpoint. -/
def discoveryDoc : XElem :=
  .node "netRemoteApi" [] none
    [.node "webfsapi" [] (some "http://dev/fsapi") []]

/-- A transport where discovery succeeds but every other URL (in
particular `CREATE_SESSION`) has a connection failure. -/
def netDiscoverOnly : Net := fun url _ =>
  if url = "http://dev" then .response 200 (some discoveryDoc) else .connError

/-- A `c8_array` leaf with text "X". -/
def labelX : XElem := .node "c8_array" [] (some "X") []

/-- A modes list snapshot in which two distinct entries carry the same
label "X" (bands 0 and 1). -/
def demoDupModes : List Item :=
  [[(some "band", .vint 0), (some "label", .velem labelX)],
   [(some "band", .vint 1), (some "label", .velem labelX)]]

/-- A LIST response item carrying a sub-field whose `name` attribute is
`band`. -/
def bandOverwriteItem : XElem :=
  .node "item" [] none
    [.node "field" [("name", "band")] none [.node "u8" [] (some "7") []]]

/-- A successful LIST response whose single item has a field named `band`. -/
def bandOverwriteListDoc : XElem :=
  .node "fsapiResponse" [] none
    [.node "status" [] (some "FS_OK") [], bandOverwriteItem]

/-- A transport whose every response is `bandOverwriteListDoc`. -/
def netBandDemo : Net := fun _ _ => .response 200 (some bandOverwriteListDoc)

/-- A LIST response item with a single `label` field. -/
def labelItem (lbl : String) : XElem :=
  .node "item" [] none
    [.node "field" [("name", "label")] none [.node "c8_array" [] (some lbl) []]]

/-- A successful LIST response with two labelled items. -/
def modesListDoc : XElem :=
  .node "fsapiResponse" [] none
    [.node "status" [] (some "FS_OK") [], labelItem "FM", labelItem "DAB"]

/-- A successful GET response carrying `<value><u32>7</u32></value>`. -/
def longDoc7 : XElem :=
  .node "fsapiResponse" [] none
    [.node "status" [] (some "FS_OK") [],
     .node "value" [] none [.node "u32" [] (some "7") []]]

/-- A transport serving the mode read (`u32` value 7) and, on every other
URL, the two-item modes list (bands 0 and 1 — neither equal to 7). -/
def netModeDemo : Net := fun url _ =>
  if url = "http://dev/fsapi/GET/netRemote.sys.mode" then
    .response 200 (some longDoc7)
  else
    .response 200 (some modesListDoc)

end FSAPI

namespace FSAPI

/-- C1: for every path and extra mapping, `call` returns `None` (and, being
a total function into `Option`, never raises) when the endpoint is unset,
when the transport reports a connection failure after exhausting retries,
when the HTTP response status is 404, or when the response body fails to
parse. -/
theorem call_absent_on_failure (c : Client) (net : Net) (path : String)
    (extra : Option Params)
    (h : c.webfsapi = none
       ∨ (∀ url p, net url p = .connError)
       ∨ (∀ url p, ∃ b, net url p = .response 404 b)
       ∨ (∀ url p, ∃ s, net url p = .response s none)) :
    c.call net path extra = none := by
  unfold Client.call
  rcases h with h | h | h | h
  · rw [h]
  · cases hw : c.webfsapi with
    | none => rfl
    | some ep =>
      by_cases he : ep = ""
      · simp [he]
      · simp [he, h]
  · cases hw : c.webfsapi with
    | none => rfl
    | some ep =>
      by_cases he : ep = ""
      · simp [he]
      · obtain ⟨b, hb⟩ := h (ep ++ "/" ++ path) (c.callParams (extra.getD []))
        simp [he, hb]
  · cases hw : c.webfsapi with
    | none => rfl
    | some ep =>
      by_cases he : ep = ""
      · simp [he]
      · obtain ⟨s, hs⟩ := h (ep ++ "/" ++ path) (c.callParams (extra.getD []))
        simp [he, hs]

/-- Witness for C1 at a concrete client with no endpoint. -/
theorem call_absent_on_failure_witness :
    Client.call ⟨"1234", none, none⟩ (fun _ _ => .connError) "GET/x" none = none :=
  call_absent_on_failure ⟨"1234", none, none⟩ (fun _ _ => .connError) "GET/x" none
    (Or.inl rfl)

/-- Helper: the objectify comparison of an element against the literal
token `FS_OK` is true exactly when its text is that token. -/
theorem elemEqStr_FS_OK_iff (st : XElem) :
    elemEqStr st "FS_OK" = true ↔ st.text = some "FS_OK" := by
  unfold elemEqStr
  cases htx : st.text with
  | none => decide
  | some s =>
    simp only [Option.getD_some]
    constructor
    · intro h
      cases hp : parsePyInt s with
      | some n => rw [hp] at h; simp at h
      | none =>
        rw [hp] at h
        have hs : s = "FS_OK" := by simpa using h
        rw [hs]
    · intro h
      have hs : s = "FS_OK" := by simpa using h
      subst hs
      decide

/-- C2 counterexample: against the claim, a decoded document that exists
but lacks the expected `value` child makes `handle_int` raise
AttributeError instead of returning `None`. -/
theorem handle_int_raises_on_missing_value :
    demoClient.handle_int netEmptyDoc "netRemote.sys.audio.volume"
      = .error .attributeError := rfl

/-- C2 (amended): `handle_text` / `handle_int` / `handle_long` return
`None` when the underlying call fails, and a present well-typed leaf
yields the typed value; however, when the decoded document exists but the
expected child is absent or its text non-numeric, they raise (propagate a
Python exception) rather than returning `None`. -/
theorem handle_typed_accessors (c : Client) (net : Net) (item : String) :
    (c.handle_get net item = none →
       c.handle_text net item = .ok none
       ∧ c.handle_int net item = .ok none
       ∧ c.handle_long net item = .ok none)
    ∧ (∀ doc v ca s, c.handle_get net item = some doc →
         doc.findChild "value" = some v → v.findChild "c8_array" = some ca →
         ca.text = some s → s ≠ "" →
         c.handle_text net item = .ok (some s))
    ∧ (∀ doc v u n, c.handle_get net item = some doc →
         doc.findChild "value" = some v → v.findChild "u8" = some u →
         pyInt u.text = .ok n →
         c.handle_int net item = .ok (some n))
    ∧ (∀ doc v u n, c.handle_get net item = some doc →
         doc.findChild "value" = some v → v.findChild "u32" = some u →
         pyInt u.text = .ok n →
         c.handle_long net item = .ok (some n)) := by
  refine ⟨fun h => ?_,
          fun doc v ca s h hv hc ht hs => ?_,
          fun doc v u n h hv hu hn => ?_,
          fun doc v u n h hv hu hn => ?_⟩
  · simp [Client.handle_text, Client.handle_int, Client.handle_long,
      handle_text_decode, handle_int_decode, handle_long_decode, h]
  · simp [Client.handle_text, handle_text_decode, h, XElem.attr, hv, hc, ht, hs]
  · simp [Client.handle_int, handle_int_decode, h, XElem.attr, hv, hu, hn]
  · simp [Client.handle_long, handle_long_decode, h, XElem.attr, hv, hu, hn]

/-- Witness for C2 (amended) on a concrete well-typed `u8` response. -/
theorem handle_typed_accessors_witness :
    demoClient.handle_int netGoodU8 "netRemote.play.status" = .ok (some 2) :=
  (handle_typed_accessors demoClient netGoodU8 "netRemote.play.status").2.2.1
    goodU8Doc (XElem.node "value" [] none [XElem.node "u8" [] (some "2") []])
    (XElem.node "u8" [] (some "2") []) 2 rfl rfl rfl rfl

/-- C6: `handle_set` returns `None` when the call itself failed; when the
call produced a document with a `status` node, it returns the boolean
`doc.status == 'FS_OK'`, which is true exactly when the status text is the
literal success token `FS_OK` and false for any other status. -/
theorem handle_set_status (c : Client) (net : Net) (item : String) (value : PyV) :
    (c.call net ("SET/" ++ item) (some [("value", value)]) = none →
       c.handle_set net item value = .ok none)
    ∧ (∀ doc st, c.call net ("SET/" ++ item) (some [("value", value)]) = some doc →
         doc.findChild "status" = some st →
         c.handle_set net item value = .ok (some (elemEqStr st "FS_OK"))
         ∧ (elemEqStr st "FS_OK" = true ↔ st.text = some "FS_OK")) := by
  constructor
  · intro h
    simp [Client.handle_set, handle_set_decode, h]
  · intro doc st h hst
    refine ⟨?_, elemEqStr_FS_OK_iff st⟩
    simp [Client.handle_set, handle_set_decode, h, XElem.attr, hst]

/-- Witness for C6: a concrete SET whose response status is `FS_FAIL`
yields the boolean `false` (not absent). -/
theorem handle_set_status_witness :
    demoClient.handle_set netFailStatus "netRemote.sys.audio.volume" (.vint 5)
      = .ok (some false) :=
  ((handle_set_status demoClient netFailStatus "netRemote.sys.audio.volume"
      (.vint 5)).2 failStatusDoc (XElem.node "status" [] (some "FS_FAIL") [])
      rfl rfl).1

/-- C9: when the underlying `handle_int` read yields `None`, `get_mute`
and `get_power` return the boolean `false` rather than an absent value —
exactly the value they return when the device reports mute/power off
(`u8` value 0), so the two cases are indistinguishable to callers. -/
theorem get_mute_power_false_on_failure (c : Client) (net : Net) :
    (c.handle_int net "netRemote.sys.audio.mute" = .ok none →
       c.get_mute net = .ok false)
    ∧ (c.handle_int net "netRemote.sys.power" = .ok none →
       c.get_power net = .ok false)
    ∧ (c.handle_int net "netRemote.sys.audio.mute" = .ok (some 0) →
       c.get_mute net = .ok false)
    ∧ (c.handle_int net "netRemote.sys.power" = .ok (some 0) →
       c.get_power net = .ok false) := by
  refine ⟨fun h => ?_, fun h => ?_, fun h => ?_, fun h => ?_⟩ <;>
    simp [Client.get_mute, Client.get_power, h, pyBool, Except.map]

/-- Witness for C9: a dead transport makes `get_mute` return `false`. -/
theorem get_mute_power_false_on_failure_witness :
    demoClient.get_mute netDown = .ok false :=
  (get_mute_power_false_on_failure demoClient netDown).1 rfl

/-- C3 counterexample: with the device URL unreachable, construction does
not complete with a `None` endpoint — the connection error propagates out
of `__init__` (there is no try/except around `get_fsapi_endpoint`). -/
theorem init_raises_on_discovery_failure :
    initClient netDown "http://dev" "1234" = .error .connectionError := rfl

/-- C3 (amended): when discovery fails (device URL unreachable or the
response malformed), the exception escapes the constructor, so no client
is produced; on any client whose endpoint is unset, every call returns
the absent value. -/
theorem discovery_failure_behaviour (net : Net) (url pin : String) (c : Client) :
    (net url [] = .connError →
       initClient net url pin = .error .connectionError)
    ∧ (∀ st, net url [] = .response st none →
       initClient net url pin = .error .xmlSyntaxError)
    ∧ (c.webfsapi = none →
       ∀ path extra, c.call net path extra = none) := by
  refine ⟨fun h => ?_, fun st h => ?_, fun h path extra => ?_⟩
  · simp [initClient, get_fsapi_endpoint, h]
  · simp [initClient, get_fsapi_endpoint, h]
  · simp [Client.call, h]

/-- Witness for C3 (amended) on a dead transport. -/
theorem discovery_failure_behaviour_witness :
    initClient netDown "http://dev" "1234" = .error .connectionError :=
  (discovery_failure_behaviour netDown "http://dev" "1234" demoClient).1 rfl

/-- C4 counterexample: with discovery succeeding but `CREATE_SESSION`
unreachable, `call` returns `None` inside `create_session` and the
attribute access `doc.sessionId` on `None` raises AttributeError, which
escapes the constructor: construction does not complete with `sid` unset. -/
theorem init_raises_on_session_failure :
    initClient netDiscoverOnly "http://dev" "1234" = .error .attributeError := rfl

/-- C4 (amended): when `call('CREATE_SESSION')` yields the absent value
(unreachable endpoint or unparseable response), `create_session` raises
AttributeError and the exception escapes the constructor; on a client
whose `sid` is unset, calls still proceed, sending `sid=None` among the
parameters. -/
theorem session_failure_behaviour (net : Net) (url pin : String) (c : Client) :
    (c.call net "CREATE_SESSION" none = none →
       c.create_session net = .error .attributeError)
    ∧ (∀ w, get_fsapi_endpoint net url = .ok w →
       Client.call { pin := pin, sid := none, webfsapi := w } net "CREATE_SESSION" none
         = none →
       initClient net url pin = .error .attributeError)
    ∧ (c.sid = none → dictLookup (c.callParams []) "sid" = some .vnone) := by
  refine ⟨fun h => ?_, fun w hw hc => ?_, fun h => ?_⟩
  · simp [Client.create_session, h]
  · simp [initClient, hw, Client.create_session, hc]
  · simp [Client.callParams, dictUpdate, dictLookup, h, sidV]

/-- Witness for C4 (amended): discovery succeeds, session creation has a
dead transport, and construction raises AttributeError. -/
theorem session_failure_behaviour_witness :
    initClient netDiscoverOnly "http://dev" "1234" = .error .attributeError :=
  (session_failure_behaviour netDiscoverOnly "http://dev" "1234" demoClient).2.1
    (some "http://dev/fsapi") rfl rfl

/-- Lookup after a dict insertion on an item dict. -/
theorem itemLookup_itemInsert (d : Item) (k k' : Option String) (v : DVal) :
    itemLookup (itemInsert d k v) k'
      = if k = k' then some v else itemLookup d k' := by
  induction d with
  | nil => simp [itemInsert, itemLookup]
  | cons hd rest ih =>
    obtain ⟨k0, v0⟩ := hd
    by_cases h0 : k0 = k
    · subst h0
      by_cases h1 : k0 = k'
      · subst h1; simp [itemInsert, itemLookup]
      · simp [itemInsert, itemLookup, h1]
    · by_cases h1 : k0 = k'
      · subst h1
        have hne : k ≠ k0 := fun h => h0 h.symm
        simp [itemInsert, itemLookup, h0, hne]
      · simp [itemInsert, itemLookup, h0, h1, ih]

/-- The field loop of `handle_list` succeeds and preserves the entry under
any key that no field carries, provided every field has a payload child. -/
theorem addFields_lookup (fields : List XElem) (acc : Item) (k : Option String)
    (h : ∀ f ∈ fields, f.attrGet "name" ≠ k ∧ f.children ≠ []) :
    ∃ d, addFields acc fields = .ok d ∧ itemLookup d k = itemLookup acc k := by
  induction fields generalizing acc with
  | nil => exact ⟨acc, rfl, rfl⟩
  | cons f rest ih =>
    obtain ⟨hname, hchild⟩ := h f (by simp)
    cases hl : f.children.getLast? with
    | none =>
      cases hc : f.children with
      | nil => exact absurd hc hchild
      | cons a as => rw [hc] at hl; simp [List.getLast?] at hl
    | some v =>
      obtain ⟨d, hd, hlk⟩ := ih (itemInsert acc (f.attrGet "name") (.velem v))
        (fun g hg => h g (by simp [hg]))
      refine ⟨d, ?_, ?_⟩
      · simp [addFields, hl, hd]
      · rw [hlk, itemLookup_itemInsert]
        simp [hname]

/-- The item loop of `handle_list` assigns consecutive band indices
starting at `idx`, in document order, provided no field is named `band`
and every field has a payload child. -/
theorem buildItems_bands (items : List XElem) (idx : Int)
    (h : ∀ it ∈ items, ∀ f ∈ it.children,
        f.attrGet "name" ≠ some "band" ∧ f.children ≠ []) :
    ∃ l, buildItems idx items = .ok l ∧ l.length = items.length
      ∧ ∀ i (hi : i < l.length),
          itemLookup (l.get ⟨i, hi⟩) (some "band") = some (.vint (idx + i)) := by
  induction items generalizing idx with
  | nil => exact ⟨[], rfl, rfl, fun i hi => absurd hi (by simp)⟩
  | cons it rest ih =>
    obtain ⟨d, hd, hlk⟩ := addFields_lookup it.children [(some "band", .vint idx)]
      (some "band") (h it (by simp))
    obtain ⟨l, hl, hlen, hbands⟩ := ih (idx + 1) (fun x hx f hf => h x (by simp [hx]) f hf)
    refine ⟨d :: l, ?_, ?_, ?_⟩
    · simp [buildItems, mkListItem, hd, hl]
    · simp [hlen]
    · intro i hi
      cases i with
      | zero =>
        simpa [List.get, itemLookup] using hlk
      | succ j =>
        have hj : j < l.length := by simpa using hi
        have hb := hbands j hj
        have harith : idx + 1 + (j : Int) = idx + ((j : Nat) + 1 : Nat) := by
          push_cast; ring
        simpa [List.get, harith] using hb

/-- C7 counterexample: a successful FS_OK LIST response whose single item
carries a sub-field named `band` — the field value overwrites the injected
0-based index, so the returned `band` is not the item's position. -/
theorem handle_list_band_overwritten :
    demoClient.handle_list netBandDemo "netRemote.sys.caps.validModes"
      = .ok [[(some "band", .velem (.node "u8" [] (some "7") []))]]
    ∧ itemLookup [(some "band", DVal.velem (.node "u8" [] (some "7") []))]
        (some "band") ≠ some (.vint 0) := by
  refine ⟨rfl, fun h => ?_⟩
  rw [show itemLookup [(some "band", DVal.velem (XElem.node "u8" [] (some "7") []))]
        (some "band") = some (DVal.velem (XElem.node "u8" [] (some "7") []))
      from rfl] at h
  injection h with h1
  exact DVal.noConfusion h1

/-- C7 (amended): for a successful LIST response with status FS_OK in
which no item carries a sub-field named `band` and every field has a
payload child, `handle_list` returns one dict per `item` node in document
order, and each dict's `band` entry equals its 0-based position. -/
theorem handle_list_bands (c : Client) (net : Net) (item : String)
    (doc st : XElem)
    (hcall : c.call net ("LIST_GET_NEXT/" ++ item ++ "/-1")
        (some [("maxItems", .vint 100)]) = some doc)
    (hst : doc.findChild "status" = some st)
    (hok : elemEqStr st "FS_OK" = true)
    (hfields : ∀ it ∈ doc.children.filter (fun c => c.tag == "item"),
        ∀ f ∈ it.children, f.attrGet "name" ≠ some "band" ∧ f.children ≠ []) :
    ∃ l, c.handle_list net item = .ok l
      ∧ l.length = (doc.children.filter (fun c => c.tag == "item")).length
      ∧ ∀ i (hi : i < l.length),
          itemLookup (l.get ⟨i, hi⟩) (some "band") = some (.vint i) := by
  obtain ⟨l, hl, hlen, hb⟩ := buildItems_bands
    (doc.children.filter (fun c => c.tag == "item")) 0 hfields
  refine ⟨l, ?_, hlen, ?_⟩
  · simp [Client.handle_list, handle_list_decode, hcall, XElem.attr, hst, hok, hl]
  · intro i hi
    simpa using hb i hi

/-- Witness for C7 (amended) on a concrete two-item modes list. -/
theorem handle_list_bands_witness :
    ∃ l, demoClient.handle_list netModeDemo "netRemote.sys.caps.validModes" = .ok l
      ∧ l.length = 2
      ∧ ∀ i (hi : i < l.length),
          itemLookup (l.get ⟨i, hi⟩) (some "band") = some (.vint i) := by
  have hfields : ∀ it ∈ modesListDoc.children.filter (fun c => c.tag == "item"),
      ∀ f ∈ it.children, f.attrGet "name" ≠ some "band" ∧ f.children ≠ [] := by
    intro it hit f hf
    rw [show modesListDoc.children.filter (fun c => c.tag == "item")
          = [labelItem "FM", labelItem "DAB"] from rfl] at hit
    simp at hit
    rcases hit with h | h <;> subst h <;>
    · rw [show (labelItem _).children
            = [XElem.node "field" [("name", "label")] none
                [XElem.node "c8_array" [] (some _) []]] from rfl] at hf
      simp at hf
      subst hf
      exact ⟨by decide, List.cons_ne_nil _ _⟩
  obtain ⟨l, h1, h2, h3⟩ := handle_list_bands demoClient netModeDemo
    "netRemote.sys.caps.validModes" modesListDoc
    (XElem.node "status" [] (some "FS_OK") []) rfl rfl rfl hfields
  exact ⟨l, h1, h2.trans rfl, h3⟩

/-- C5 counterexample: on a list with two entries labelled "X" (bands 0
and 1), the spec's rule selects the first match's band 0, but the code's
scan sends band 1 — the LAST match wins, because the loop keeps
reassigning on every match. -/
theorem set_mode_first_match_counterexample :
    specFirstMatchBand "label" "X" demoDupModes = some (.vint 0)
    ∧ set_mode_value demoDupModes "X" = .ok (.vint 1)
    ∧ set_mode_value demoDupModes "X" ≠ .ok (.vint 0) := by
  refine ⟨rfl, rfl, fun h => ?_⟩
  rw [show set_mode_value demoDupModes "X" = .ok (.vint 1) from rfl] at h
  injection h with h1
  injection h1 with h2
  exact absurd h2 (by decide)

/-- The scan loop realises the last-match rule: under presence of the
scanned key and of `band` in every item, it returns the accumulator when
nothing matches and the band of the last matching item otherwise. -/
theorem scanBand_last_match (key value : String) (items : List Item) (acc : DVal)
    (h : ∀ it ∈ items,
        (itemLookup it (some key)).isSome ∧ (itemLookup it (some "band")).isSome) :
    scanBand key value acc items
      = .ok (match lastMatch (matchesKey key value) items with
             | none => acc
             | some it => (itemLookup it (some "band")).getD (.vint (-1))) := by
  induction items generalizing acc with
  | nil => rfl
  | cons it rest ih =>
    obtain ⟨hk, hb⟩ := h it (by simp)
    obtain ⟨lv, hlv⟩ := Option.isSome_iff_exists.mp hk
    obtain ⟨b, hbv⟩ := Option.isSome_iff_exists.mp hb
    have hrest := fun x hx => h x (List.mem_cons_of_mem _ hx)
    by_cases hm : dvalEqStr lv value
    · rw [show scanBand key value acc (it :: rest) = scanBand key value b rest
          from by simp [scanBand, hlv, hm, hbv]]
      rw [ih b hrest]
      have hmk : matchesKey key value it = true := by simp [matchesKey, hlv, hm]
      cases hlm : lastMatch (matchesKey key value) rest with
      | some r => simp [lastMatch, hlm]
      | none => simp [lastMatch, hlm, hmk, hbv]
    · rw [show scanBand key value acc (it :: rest) = scanBand key value acc rest
          from by simp [scanBand, hlv, hm]]
      rw [ih acc hrest]
      have hmk : matchesKey key value it = false := by
        simp [matchesKey, hlv, hm]
      cases hlm : lastMatch (matchesKey key value) rest with
      | some r => simp [lastMatch, hlm]
      | none => simp [lastMatch, hlm, hmk]

/-- C5 (amended): setting by label sends the band entry of the LAST item
whose matched field equals the label (`label` for modes and equalizer
presets, `name` for presets), and the sentinel -1 when no item matches. -/
theorem set_by_label_sends_last_match (value : String)
    (modes eq_presets presets : List Item)
    (hm : ∀ it ∈ modes,
        (itemLookup it (some "label")).isSome ∧ (itemLookup it (some "band")).isSome)
    (he : ∀ it ∈ eq_presets,
        (itemLookup it (some "label")).isSome ∧ (itemLookup it (some "band")).isSome)
    (hp : ∀ it ∈ presets,
        (itemLookup it (some "name")).isSome ∧ (itemLookup it (some "band")).isSome) :
    set_mode_value modes value = .ok (specLastMatchBand "label" value modes)
    ∧ set_eq_preset_value eq_presets value
        = .ok (specLastMatchBand "label" value eq_presets)
    ∧ set_preset_value presets value
        = .ok (specLastMatchBand "name" value presets) :=
  ⟨scanBand_last_match "label" value modes (.vint (-1)) hm,
   scanBand_last_match "label" value eq_presets (.vint (-1)) he,
   scanBand_last_match "name" value presets (.vint (-1)) hp⟩

/-- Witness for C5 (amended) on the duplicate-label list: the last match's
band 1 is sent, and an absent label yields the sentinel -1. -/
theorem set_by_label_sends_last_match_witness :
    set_mode_value demoDupModes "X" = .ok (.vint 1)
    ∧ specLastMatchBand "label" "Y" demoDupModes = .vint (-1) := by
  have hm : ∀ it ∈ demoDupModes,
      (itemLookup it (some "label")).isSome ∧ (itemLookup it (some "band")).isSome := by
    intro it hit
    simp [demoDupModes] at hit
    rcases hit with h | h <;> subst h <;> exact ⟨rfl, rfl⟩
  have h := (set_by_label_sends_last_match "X" demoDupModes [] []
      hm (fun it hit => absurd hit (List.not_mem_nil it))
      (fun it hit => absurd hit (List.not_mem_nil it))).1
  exact ⟨h.trans rfl, rfl⟩

/-- Nothing compares equal to Python `None` here: a band value never
matches a failed read. -/
theorem dvalEqOptInt_none (b : DVal) : dvalEqOptInt b none = false := by
  cases b <;> rfl

/-- The label-selection loop returns its accumulator when no item's band
matches the value read from the device. -/
theorem scanLabel_no_match (im : Option Int) (items : List Item) (acc : Option DVal)
    (h : ∀ it ∈ items, ∃ b, itemLookup it (some "band") = some b
        ∧ dvalEqOptInt b im = false) :
    scanLabel im acc items = .ok acc := by
  induction items with
  | nil => rfl
  | cons it rest ih =>
    obtain ⟨b, hb, hf⟩ := h it (by simp)
    rw [show scanLabel im acc (it :: rest) = scanLabel im acc rest
        from by simp [scanLabel, hb, hf]]
    exact ih (fun x hx => h x (List.mem_cons_of_mem _ hx))

/-- C10: when the value read from the device matches the band of no entry
in the fetched list — in particular whenever the read fails and yields
`None`, which compares equal to no band — `get_mode` and `get_eq_preset`
return the literal string "None" (the rendering of `str(None)`), not an
absent value. -/
theorem get_mode_eq_preset_None_string (c : Client) (net : Net) :
    (∀ im modes, c.handle_long net "netRemote.sys.mode" = .ok im →
       c.handle_list net "netRemote.sys.caps.validModes" = .ok modes →
       (∀ it ∈ modes, ∃ b, itemLookup it (some "band") = some b
           ∧ dvalEqOptInt b im = false) →
       c.get_mode net = .ok "None")
    ∧ (∀ ie eqs, c.handle_int net "netRemote.sys.audio.eqPreset" = .ok ie →
       c.handle_list net "netRemote.sys.caps.eqPresets" = .ok eqs →
       (∀ it ∈ eqs, ∃ b, itemLookup it (some "band") = some b
           ∧ dvalEqOptInt b ie = false) →
       c.get_eq_preset net = .ok "None")
    ∧ (∀ b, dvalEqOptInt b none = false)
    ∧ pyStr none = "None" := by
  refine ⟨fun im modes h1 h2 h3 => ?_, fun ie eqs h1 h2 h3 => ?_,
    dvalEqOptInt_none, rfl⟩
  · simp [Client.get_mode, h1, h2, scanLabel_no_match im modes none h3, pyStr]
  · simp [Client.get_eq_preset, h1, h2, scanLabel_no_match ie eqs none h3, pyStr]

/-- Witness for C10: the device reports mode 7 but the list carries bands
0 and 1 only, so `get_mode` returns the string "None". -/
theorem get_mode_eq_preset_None_string_witness :
    demoClient.get_mode netModeDemo = .ok "None" := by
  refine (get_mode_eq_preset_None_string demoClient netModeDemo).1 (some 7)
    [[(some "band", .vint 0),
      (some "label", .velem (.node "c8_array" [] (some "FM") []))],
     [(some "band", .vint 1),
      (some "label", .velem (.node "c8_array" [] (some "DAB") []))]]
    rfl rfl ?_
  intro it hit
  simp at hit
  rcases hit with h | h <;> subst h
  · exact ⟨.vint 0, rfl, rfl⟩
  · exact ⟨.vint 1, rfl, rfl⟩

/-- Lookup after a dict insertion on a parameter dict. -/
theorem dictLookup_dictInsert (d : Params) (k k' : String) (v : PyV) :
    dictLookup (dictInsert d k v) k'
      = if k = k' then some v else dictLookup d k' := by
  induction d with
  | nil => simp [dictInsert, dictLookup]
  | cons hd rest ih =>
    obtain ⟨k0, v0⟩ := hd
    by_cases h0 : k0 = k
    · subst h0
      by_cases h1 : k0 = k'
      · subst h1; simp [dictInsert, dictLookup]
      · simp [dictInsert, dictLookup, h1]
    · by_cases h1 : k0 = k'
      · subst h1
        have hne : k ≠ k0 := fun h => h0 h.symm
        simp [dictInsert, dictLookup, h0, hne]
      · simp [dictInsert, dictLookup, h0, h1, ih]

/-- A key absent from the update mapping keeps its value in the base. -/
theorem dictLookup_dictUpdate_of_absent (e : Params) (d : Params) (k : String)
    (h : dictLookup e k = none) :
    dictLookup (dictUpdate d e) k = dictLookup d k := by
  induction e generalizing d with
  | nil => rfl
  | cons kv rest ih =>
    obtain ⟨k0, v0⟩ := kv
    have hne : ¬(k0 = k) := by
      intro hk
      rw [show dictLookup ((k0, v0) :: rest) k
            = if k0 = k then some v0 else dictLookup rest k from rfl, if_pos hk] at h
      cases h
    have hrest : dictLookup rest k = none := by
      rw [show dictLookup ((k0, v0) :: rest) k
            = if k0 = k then some v0 else dictLookup rest k from rfl, if_neg hne] at h
      exact h
    rw [show dictUpdate d ((k0, v0) :: rest) = dictUpdate (dictInsert d k0 v0) rest
        from rfl]
    rw [ih (dictInsert d k0 v0) hrest, dictLookup_dictInsert]
    simp [hne]

/-- A key absent from a dict's key list looks up to `none`. -/
theorem dictLookup_of_not_mem_keys (e : Params) (k : String)
    (h : k ∉ e.map Prod.fst) : dictLookup e k = none := by
  induction e with
  | nil => rfl
  | cons kv rest ih =>
    obtain ⟨k0, v0⟩ := kv
    have hne : ¬(k0 = k) := by
      intro hk
      exact h (by rw [← hk]; exact List.mem_cons_self _ _)
    have h2 : k ∉ rest.map Prod.fst := by
      intro hm
      exact h (List.mem_cons_of_mem _ hm)
    rw [show dictLookup ((k0, v0) :: rest) k
          = if k0 = k then some v0 else dictLookup rest k from rfl,
        if_neg hne]
    exact ih h2

/-- A binding of the update mapping (with unique keys) survives into the
updated dict. -/
theorem dictLookup_dictUpdate_of_mem (e : Params) (d : Params) (k : String) (v : PyV)
    (hnd : (e.map Prod.fst).Nodup) (h : dictLookup e k = some v) :
    dictLookup (dictUpdate d e) k = some v := by
  induction e generalizing d with
  | nil => cases h
  | cons kv rest ih =>
    obtain ⟨k0, v0⟩ := kv
    have hnd0 : (k0 :: rest.map Prod.fst).Nodup := hnd
    have hnd' := List.nodup_cons.mp hnd0
    rw [show dictUpdate d ((k0, v0) :: rest) = dictUpdate (dictInsert d k0 v0) rest
        from rfl]
    by_cases hk : k0 = k
    · subst hk
      have hv : v0 = v := by
        rw [show dictLookup ((k0, v0) :: rest) k0
              = if k0 = k0 then some v0 else dictLookup rest k0 from rfl,
            if_pos rfl] at h
        exact Option.some.inj h
      subst hv
      have habs : dictLookup rest k0 = none :=
        dictLookup_of_not_mem_keys rest k0 hnd'.1
      rw [dictLookup_dictUpdate_of_absent rest _ k0 habs, dictLookup_dictInsert]
      simp
    · have h' : dictLookup rest k = some v := by
        rw [show dictLookup ((k0, v0) :: rest) k
              = if k0 = k then some v0 else dictLookup rest k from rfl,
            if_neg hk] at h
        exact h
      exact ih (dictInsert d k0 v0) hnd'.2 h'

/-- C8 counterexample: an extra binding of the reserved key `pin`
overrides the client's stored pin in the sent parameters. -/
theorem callParams_extra_overrides_pin :
    dictLookup (demoClient.callParams [("pin", .vstr "evil")]) "pin"
      = some (.vstr "evil")
    ∧ some (PyV.vstr "evil") ≠ some (PyV.vstr "1234") := by
  refine ⟨rfl, fun h => ?_⟩
  injection h with h1
  injection h1 with h2
  exact absurd h2 (by decide)

/-- C8 (amended): the sent parameter mapping always contains the keys
`pin` and `sid`; they carry the client's stored values whenever the extra
mapping does not itself bind them, and every extra key/value is included —
an extra binding of `pin` or `sid` overriding the stored value. -/
theorem callParams_contents (c : Client) (extra : Params)
    (hnd : (extra.map Prod.fst).Nodup) :
    (dictLookup (c.callParams extra) "pin").isSome
    ∧ (dictLookup (c.callParams extra) "sid").isSome
    ∧ (dictLookup extra "pin" = none →
        dictLookup (c.callParams extra) "pin" = some (.vstr c.pin))
    ∧ (dictLookup extra "sid" = none →
        dictLookup (c.callParams extra) "sid" = some (sidV c.sid))
    ∧ (∀ k v, dictLookup extra k = some v →
        dictLookup (c.callParams extra) k = some v) := by
  have hpin : dictLookup extra "pin" = none →
      dictLookup (c.callParams extra) "pin" = some (.vstr c.pin) := by
    intro h
    rw [Client.callParams, dictLookup_dictUpdate_of_absent extra _ _ h]
    rfl
  have hsid : dictLookup extra "sid" = none →
      dictLookup (c.callParams extra) "sid" = some (sidV c.sid) := by
    intro h
    rw [Client.callParams, dictLookup_dictUpdate_of_absent extra _ _ h]
    rfl
  have hextra : ∀ k v, dictLookup extra k = some v →
      dictLookup (c.callParams extra) k = some v := by
    intro k v h
    exact dictLookup_dictUpdate_of_mem extra _ k v hnd h
  refine ⟨?_, ?_, hpin, hsid, hextra⟩
  · cases hp : dictLookup extra "pin" with
    | none => rw [hpin hp]; rfl
    | some v => rw [hextra "pin" v hp]; rfl
  · cases hp : dictLookup extra "sid" with
    | none => rw [hsid hp]; rfl
    | some v => rw [hextra "sid" v hp]; rfl

/-- Witness for C8 (amended) on the one-extra call `dict(maxItems=100)`:
pin and sid keep the stored values and the extra key is present. -/
theorem callParams_contents_witness :
    dictLookup (demoClient.callParams [("maxItems", .vint 100)]) "pin"
      = some (.vstr "1234")
    ∧ dictLookup (demoClient.callParams [("maxItems", .vint 100)]) "maxItems"
      = some (.vint 100) := by
  have h := callParams_contents demoClient [("maxItems", .vint 100)] (by simp)
  exact ⟨h.2.2.1 rfl, h.2.2.2.2 "maxItems" (.vint 100) rfl⟩

end FSAPI
